import Mathlib

/-!
Shallow embedding of the sv-results-kiosk lottery scrapers.

The repository is a set of near-duplicate Node scripts that fetch one
results page and extract per-game records into a JSON document.  The
extraction core is embedded here, one namespace per source variant:

* `V1` — the first variant in `src/scripts/update-lottery.js`
  (char-level string scanning with `indexOf`/`substring` and small
  regexes; text is modelled as `List Char`, each regex as an explicit
  scanner with the same leftmost-match semantics).
* `P0` — `src/unnamed/part_000` (cheerio-based; its parsers work on the
  plain text of the section nodes, modelled as lists of line strings).
* `P1` — `src/unnamed/part_001` (works on whitespace-normalized body
  text; since `normalizeText` collapses runs of blanks to single spaces,
  the text is modelled as the list of its space-separated word tokens,
  and each regex as a scanner over that token list; `\s+` in a pattern
  corresponds to a token boundary).
* `P2` — `src/unnamed/part_002` (char-level, like `V1`).

I/O (HTTP fetch, file writing, logging) is out of scope per the spec;
fetch results are passed in as values and a run's output document is the
returned value.
-/

/-- `Number(s)` on a digit string: the base-10 value of a digit list. -/
def natOfDigits (l : List Char) : Nat :=
  l.foldl (fun a c => a * 10 + (c.toNat - 48)) 0

/-- JS `s.toUpperCase()` (the scrapers only rely on ASCII letters). -/
def jsUpper (s : String) : String :=
  ⟨s.data.map Char.toUpper⟩

/-- JS `s.toLowerCase()`. -/
def jsLower (s : String) : String :=
  ⟨s.data.map Char.toLower⟩

/-- JS `text.indexOf(pat)` on char lists: index of the first occurrence. -/
def jsIndexOf (t p : List Char) : Option Nat :=
  match t with
  | [] => if p.isPrefixOf ([] : List Char) then some 0 else none
  | c :: t' =>
    if p.isPrefixOf (c :: t') then some 0 else (jsIndexOf t' p).map (· + 1)

/-- JS `text.indexOf(pat, k)`: first occurrence at or after position `k`. -/
def jsIndexOfFrom (t p : List Char) (k : Nat) : Option Nat :=
  (jsIndexOf (t.drop k) p).map (· + k)

/-- Does a 4-digit run start here (regex `\d{4}` lookahead)? -/
def startsWith4Digits : List Char → Bool
  | a :: b :: c :: d :: _ => a.isDigit && b.isDigit && c.isDigit && d.isDigit
  | _ => false

/-- Leftmost-match scan: try the matcher at each position of the text,
left to right, as a JS regex search does. -/
def scanFirst {α : Type} (f : List Char → Option α) : List Char → Option α
  | [] => none
  | c :: rest =>
    match f (c :: rest) with
    | some r => some r
    | none => scanFirst f rest

/-- Alternation: try the alternatives in source order at one position. -/
def firstAlt {α : Type} : List (List Char → Option α) → List Char → Option α
  | [], _ => none
  | f :: fs, l =>
    match f l with
    | some r => some r
    | none => firstAlt fs l

namespace P0

/-- Word characters, as in the regex classes `\b` and `\w` rely on. -/
def isWordChar (c : Char) : Bool := c.isAlphanum || c == '_'

/-- Split a char list into its maximal runs of word characters
(the substrings a `\b...\b` pattern can match). -/
def wordRunsAux : List Char → List Char → List (List Char)
  | acc, [] => if acc.isEmpty then [] else [acc.reverse]
  | acc, c :: rest =>
    if isWordChar c then wordRunsAux (c :: acc) rest
    else if acc.isEmpty then wordRunsAux [] rest
    else acc.reverse :: wordRunsAux [] rest

def wordRuns (l : List Char) : List (List Char) := wordRunsAux [] l

/-- `extractNumbersFromText` of part_000: all matches of `\b\d+\b`
(maximal word runs that are all digits), converted with `Number`. -/
def extractNumbersFromText (s : String) : List Nat :=
  ((wordRuns s.data).filter (fun r => !r.isEmpty && r.all Char.isDigit)).map natOfDigits

structure SingleParse where
  numbers : List Nat
  bonus : Option Nat
deriving DecidableEq

/-- `parseSingleDraw` of part_000: joins the section node texts, pulls
all numeric tokens, and slices off 6 main numbers and a bonus when there
are enough; otherwise it returns the token list unchanged. -/
def parseSingleDraw (lines : List String) : SingleParse :=
  let nums := extractNumbersFromText (String.intercalate "\n" lines)
  if nums.length ≥ 7 then ⟨nums.take 6, nums.get? 6⟩
  else if nums.length ≥ 6 then ⟨nums.take 6, none⟩
  else ⟨nums, none⟩

/-- The fixed draw-label vocabulary of `parseMultiDraw`. -/
def drawLabels : List String :=
  ["EARLYBIRD", "MORNING", "MIDDAY", "MIDAFTERNOON", "DRIVETIME", "EVENING"]

/-- First `\b(\d+)\b` match in a line, as `candidate.match(/\b(\d+)\b/)`. -/
def lineFirstNat (s : String) : Option Nat :=
  ((wordRuns s.data).find? (fun r => !r.isEmpty && r.all Char.isDigit)).map natOfDigits

/-- `drawLabels.find(lbl => line.toUpperCase().startsWith(lbl))`. -/
def mdHit (line : String) : Option String :=
  drawLabels.find? (fun l => l.data.isPrefixOf (jsUpper line).data)

/-- The lookahead of `parseMultiDraw`: scan the next lines for a number
or a `?` marker; a line with a number yields that number, a line
containing `?` stops with no value, an exhausted window leaves the value
absent. -/
def mdValue : List String → Option Nat
  | [] => none
  | c :: rest =>
    match lineFirstNat c with
    | some n => some n
    | none => if c.data.any (· == '?') then none else mdValue rest

structure MDraw where
  draw : String
  value : Option Nat
deriving DecidableEq

/-- The label scan of `parseMultiDraw`: one entry per line starting with
a known draw label, paired with the value found in the 5-line window
after it (`j < min(i + 6, textLines.length)`). -/
def mdScan : List String → List MDraw
  | [] => []
  | line :: rest =>
    match mdHit line with
    | some hit => ⟨hit, mdValue (rest.take 5)⟩ :: mdScan rest
    | none => mdScan rest

structure MultiParse where
  draws : List MDraw
  latestComplete : Option MDraw
deriving DecidableEq

/-- `parseMultiDraw` of part_000: the draw list plus
`[...draws].reverse().find(d => typeof d.value === "number")`. -/
def parseMultiDraw (lines : List String) : MultiParse :=
  let draws := mdScan lines
  ⟨draws, draws.reverse.find? (fun d => d.value.isSome)⟩

end P0

namespace P1

/-- A token that the regex piece `(\d{1,2})` surrounded by `\s`/`\b`
boundaries matches whole. -/
def isNum12 (s : String) : Bool :=
  (s.data.length == 1 || s.data.length == 2) && s.data.all Char.isDigit

/-- A token matched whole by `\d{4}`. -/
def isNum4 (s : String) : Bool :=
  s.data.length == 4 && s.data.all Char.isDigit

/-- A token matched whole by `[A-Za-z]+`. -/
def isWordTok (s : String) : Bool :=
  !s.data.isEmpty && s.data.all Char.isAlpha

def natOfTok (s : String) : Nat := natOfDigits s.data

/-- The date string `${m[1]} | ${m[2]}` rebuilt by both parsers. -/
def mkDate (w d mo y : String) : String :=
  w ++ " | " ++ d ++ " " ++ mo ++ " " ++ y

/-- One attempt of the date regex
`([A-Za-z]+)\s*\|\s*(\d{1,2}\s+[A-Za-z]+\s+\d{4})` at a token position. -/
def dateHead : List String → Option String
  | w :: bar :: d :: mo :: y :: _ =>
    if isWordTok w && bar == "|" && isNum12 d && isWordTok mo && isNum4 y then
      some (mkDate w d mo y)
    else none
  | _ => none

/-- First date match plus the text from the match on
(`text.slice(text.indexOf(dateMatch[0]))`). -/
def findDateAux : List String → Option (String × List String)
  | [] => none
  | t :: rest =>
    match dateHead (t :: rest) with
    | some d => some (d, t :: rest)
    | none => findDateAux rest

/-- One attempt of the numbers regex of `parseLottoLike`:
six 1–2 digit numbers, a literal `+`, and a 1–2 digit bonus. -/
def numsHead : List String → Option (List Nat × Nat)
  | a :: b :: c :: d :: e :: f :: p :: g :: _ =>
    if isNum12 a && isNum12 b && isNum12 c && isNum12 d && isNum12 e && isNum12 f
        && p == "+" && isNum12 g then
      some ([natOfTok a, natOfTok b, natOfTok c, natOfTok d, natOfTok e, natOfTok f],
        natOfTok g)
    else none
  | _ => none

/-- First match of the numbers regex after the date. -/
def findNums : List String → Option (List Nat × Nat)
  | [] => none
  | t :: rest =>
    match numsHead (t :: rest) with
    | some v => some v
    | none => findNums rest

/-- A token matched whole by `[A-Za-z]{3}` (a currency code). -/
def isCur3 (s : String) : Bool :=
  s.data.length == 3 && s.data.all Char.isAlpha

/-- A token the class `[\d,.\s]+` keeps consuming. -/
def isNumPunct (s : String) : Bool :=
  !s.data.isEmpty && s.data.all (fun c => c.isDigit || c == ',' || c == '.')

/-- The captured group of the jackpot regex of `parseLottoLike`:
currency code, the following digit/punctuation tokens, and an optional
`million`/`billion`, re-joined and (per `.trim()`) with no outer blanks. -/
def jackpotTail (c : String) (r : List String) : String :=
  let ns := r.takeWhile isNumPunct
  let r2 := r.drop ns.length
  let ext :=
    match r2 with
    | u :: _ => if jsLower u == "million" || jsLower u == "billion" then [u] else []
    | [] => []
  String.intercalate " " (c :: (ns ++ ext))

/-- First match of
`/Next Jackpot\s+([A-Za-z]{3}\s*[\d,.\s]+(?:million|billion)?)/i`.
Note the pattern requires whitespace right after `Jackpot`, so a token
such as `Jackpot:` does not match. -/
def findJackpot : List String → Option String
  | [] => none
  | t :: rest =>
    if jsLower t == "next" then
      match rest with
      | u :: r2 =>
        if jsLower u == "jackpot" then
          match r2 with
          | c :: r3 => if isCur3 c then some (jackpotTail c r3) else findJackpot rest
          | [] => findJackpot rest
        else findJackpot rest
      | [] => none
    else findJackpot rest

structure LottoRec where
  label : String
  date : Option String
  numbers : List Nat
  bonus : Option Nat
  next_jackpot : Option String
deriving DecidableEq

/-- `parseLottoLike` of part_001: date block, then the first
`six numbers + bonus` pattern after the date, then the optional jackpot. -/
def parseLottoLike (toks : List String) (headingLabel : String) : Option LottoRec :=
  match findDateAux toks with
  | none => none
  | some (date, afterDate) =>
    match findNums afterDate with
    | none => none
    | some (numbers, bonus) =>
      some ⟨headingLabel, some date, numbers, some bonus, findJackpot afterDate⟩

/-- The session alternation of the Cash Pot draw regex, in source order. -/
def cpSessions : List String :=
  ["EARLYBIRD", "MORNING", "MIDDAY", "MIDAFTERNOON", "DRIVETIME", "EVENING"]

/-- Case-insensitive session match; `m[1].toUpperCase()` is the label. -/
def sessOf (t : String) : Option String :=
  cpSessions.find? (fun l => jsUpper t == l)

/-- `AM`/`PM`, case-insensitively. -/
def ampmTail : List Char → Bool
  | [a, p] =>
    (a == 'A' || a == 'a' || a == 'P' || a == 'p') && (p == 'M' || p == 'm')
  | _ => false

/-- A whole token of shape `\d{1,2}:\d{2}`. -/
def isTimeCore (l : List Char) : Bool :=
  match l with
  | [d1, ':', d2, d3] => d1.isDigit && d2.isDigit && d3.isDigit
  | [d1, d2, ':', d3, d4] => d1.isDigit && d2.isDigit && d3.isDigit && d4.isDigit
  | _ => false

/-- A whole token of shape `\d{1,2}:\d{2}(AM|PM)`. -/
def isTimeFull (l : List Char) : Bool :=
  match l with
  | d1 :: ':' :: d2 :: d3 :: rest =>
    d1.isDigit && d2.isDigit && d3.isDigit && ampmTail rest
  | d1 :: d2 :: ':' :: d3 :: d4 :: rest =>
    d1.isDigit && d2.isDigit && d3.isDigit && d4.isDigit && ampmTail rest
  | _ => false

def isAmPmTok (s : String) : Bool := ampmTail s.data

/-- Time group `(\d{1,2}:\d{2}\s?(?:AM|PM))`, either one token or a
time token followed by an `AM`/`PM` token; the extractor stores
`m[2].toUpperCase().replace(/\s+/g, "")`. -/
def cpTimeTok : List String → Option (String × List String)
  | [] => none
  | t :: rest =>
    if isTimeFull t.data then some (jsUpper t, rest)
    else if isTimeCore t.data then
      match rest with
      | u :: r2 => if isAmPmTok u then some (jsUpper t ++ jsUpper u, r2) else none
      | [] => none
    else none

/-- The optional draw-number group `(?:#(\d+))?`: a `#`+digits token is
consumed and captured, anything else leaves the group empty. -/
def cpHash : List String → Option String × List String
  | [] => (none, [])
  | u :: r =>
    match u.data with
    | '#' :: ds =>
      if !ds.isEmpty && ds.all Char.isDigit then (some ⟨ds⟩, r) else (none, u :: r)
    | _ => (none, u :: r)

/-- The value group `(\d{1,2}|\?)`: `?` yields an absent value
(`m[4] === "?" ? null : Number(m[4])`), otherwise the number. -/
def cpValueTok : List String → Option (Option Nat × List String)
  | [] => none
  | v :: r =>
    if v == "?" then some (none, r)
    else if isNum12 v then some (some (natOfTok v), r)
    else none

/-- A token the class `[A-Za-z ]` keeps consuming. -/
def isAlphaSpaceTok (s : String) : Bool :=
  !s.data.isEmpty && s.data.all (fun c => c.isAlpha || c == ' ')

/-- The lazy meaning group `([A-Za-z ]+?)\s*\+`: the shortest nonempty
run of letter tokens up to the first `+`. -/
def cpMeaning : List String → Option (List String × List String)
  | [] => none
  | t :: rest =>
    if isAlphaSpaceTok t then
      match rest with
      | "+" :: r2 => some ([t], r2)
      | _ => (cpMeaning rest).map (fun pr => (t :: pr.1, pr.2))
    else none

/-- A color group `(gold|red|white|\?)`: `?` maps to an absent color
(later dropped by `.filter(Boolean)`), a color name to its lowercase. -/
def cpColor (s : String) : Option (Option String) :=
  if s == "?" then some none
  else if jsLower s == "gold" || jsLower s == "red" || jsLower s == "white" then
    some (some (jsLower s))
  else none

structure CPDraw where
  draw : String
  time : String
  draw_no : Option String
  number : Option Nat
  meaning : String
  colors : List String
deriving DecidableEq

/-- One attempt of the full Cash Pot draw regex at a token position;
on success, the draw entry and the remaining tokens after the match. -/
def cpMatchAt : List String → Option (CPDraw × List String)
  | [] => none
  | t :: rest =>
    match sessOf t with
    | none => none
    | some sess =>
      match cpTimeTok rest with
      | none => none
      | some (time, r1) =>
        let hr := cpHash r1
        match cpValueTok hr.2 with
        | none => none
        | some (value, r3) =>
          match cpMeaning r3 with
          | none => none
          | some (ms, r4) =>
            match r4 with
            | c1 :: p2 :: c2 :: r5 =>
              if p2 == "+" then
                match cpColor c1, cpColor c2 with
                | some o1, some o2 =>
                  some (⟨sess, time, hr.1, value, String.intercalate " " ms,
                    ([o1, o2].filterMap id)⟩, r5)
                | _, _ => none
              else none
            | _ => none

/-- Repeated `drawRegex.exec` over the section: non-overlapping matches,
scanning left to right.  The fuel is the token count; every match
consumes at least one token, so the fuel never runs out. -/
def cpScanAux : Nat → List String → List CPDraw
  | 0, _ => []
  | _ + 1, [] => []
  | fuel + 1, t :: rest =>
    match cpMatchAt (t :: rest) with
    | some (d, rem) => d :: cpScanAux fuel rem
    | none => cpScanAux fuel rest

def cpScan (toks : List String) : List CPDraw := cpScanAux toks.length toks

structure CPRec where
  label : String
  date : Option String
  latest : Option CPDraw
  draws : List CPDraw
deriving DecidableEq

/-- `parseCashPot` of part_001: date block, the draw scan after it, and
`latest: draws.length ? draws[draws.length - 1] : null`. -/
def parseCashPot (toks : List String) : Option CPRec :=
  match findDateAux toks with
  | none => none
  | some (date, afterDate) =>
    let draws := cpScan afterDate
    some ⟨"Cash Pot", some date,
      (if draws.isEmpty then none else draws.get? (draws.length - 1)), draws⟩

structure OutputGames where
  cash_pot : CPRec
  lotto : LottoRec
  super_lotto : LottoRec
deriving DecidableEq

def cashPotDefault : CPRec := ⟨"Cash Pot", none, none, []⟩

def lottoDefault : LottoRec := ⟨"Lotto", none, [], none, none⟩

def superDefault : LottoRec := ⟨"Super Lotto", none, [], none, none⟩

/-- `Promise.all` over the three page fetches: the combined fetch fails
as soon as any single fetch fails. -/
def promiseAll3 (a b c : Except String (List String)) :
    Except String (List String × List String × List String) :=
  match a with
  | .error e => .error e
  | .ok x =>
    match b with
    | .error e => .error e
    | .ok y =>
      match c with
      | .error e => .error e
      | .ok z => .ok (x, y, z)

/-- `main` of part_001, with the fetches passed in as values (each is the
normalized token list of a page, or a fetch error).  On success the
output document's games, with the source's `??` defaults; a rejected
`Promise.all` propagates as the run's error (`process.exit(1)`). -/
def main (cashF lottoF superF : Except String (List String)) :
    Except String OutputGames :=
  match promiseAll3 cashF lottoF superF with
  | .error e => .error e
  | .ok (cashText, lottoText, superText) =>
    .ok ⟨(parseCashPot cashText).getD cashPotDefault,
      (parseLottoLike lottoText "Lotto").getD lottoDefault,
      (parseLottoLike superText "Super Lotto").getD superDefault⟩

end P1

namespace V1

/-- `extractBetween` of the first `update-lottery.js` variant: the text
strictly between the first `start` marker and the first `end` marker
after it; `null` when either marker is missing. -/
def extractBetween (t s e : List Char) : Option (List Char) :=
  match jsIndexOf t s with
  | none => none
  | some i =>
    match jsIndexOfFrom t e (i + s.length) with
    | none => none
    | some j => some ((t.take j).drop (i + s.length))

/-- One attempt of `>(\d{1,2})<\/div>` at a position: the captured value
and the number of characters the whole match consumes. -/
def tryDivNum (l : List Char) : Option (Nat × Nat) :=
  match l with
  | '>' :: c1 :: rest =>
    if c1.isDigit then
      match rest with
      | c2 :: rest2 =>
        if c2.isDigit then
          if ("</div>".data).isPrefixOf rest2 then some (natOfDigits [c1, c2], 9)
          else none
        else if ("</div>".data).isPrefixOf (c2 :: rest2) then
          some (natOfDigits [c1], 8)
        else none
      | [] => none
    else none
  | _ => none

/-- `matchAll(/>(\d{1,2})<\/div>/g)`: all non-overlapping matches, left
to right.  Fuel is the text length; a match consumes at least 8 chars. -/
def divNumsAux : Nat → List Char → List Nat
  | 0, _ => []
  | _ + 1, [] => []
  | fuel + 1, c :: rest =>
    match tryDivNum (c :: rest) with
    | some (n, k) => n :: divNumsAux fuel ((c :: rest).drop k)
    | none => divNumsAux fuel rest

def divNums (l : List Char) : List Nat := divNumsAux l.length l

/-- Lazy `.*?\d{4}` continuation: the shortest run of non-newline chars
followed by four digits; returns the consumed span. -/
def lazyDots4 : List Char → Option (List Char)
  | [] => none
  | c :: rest =>
    if startsWith4Digits (c :: rest) then some ((c :: rest).take 4)
    else if c == '\n' then none
    else (lazyDots4 rest).map (c :: ·)

/-- A literal alternative of a date regex; the match is the literal. -/
def litAt (lit : List Char) (l : List Char) : Option (List Char) :=
  if lit.isPrefixOf l then some lit else none

/-- The `<weekday>.*?\d{4}` alternative (only the last alternative of
each date alternation carries the `.*?\d{4}` tail, since `|` binds
loosest in these regexes). -/
def wdayLazyAt (lit : List Char) (l : List Char) : Option (List Char) :=
  if lit.isPrefixOf l then (lazyDots4 (l.drop lit.length)).map (lit ++ ·) else none

/-- `section.match(/Saturday|Wednesday.*?\d{4}/)`. -/
def lottoDate (sec : List Char) : Option (List Char) :=
  scanFirst (firstAlt [litAt "Saturday".data, wdayLazyAt "Wednesday".data]) sec

/-- `section.match(/Tuesday|Friday.*?\d{4}/)`. -/
def superDate (sec : List Char) : Option (List Char) :=
  scanFirst (firstAlt [litAt "Tuesday".data, wdayLazyAt "Friday".data]) sec

/-- `latestSection.match(/Monday|Tuesday|...|Sunday.*?\d{4}/)`. -/
def cashDate (sec : List Char) : Option (List Char) :=
  scanFirst (firstAlt
    [litAt "Monday".data, litAt "Tuesday".data, litAt "Wednesday".data,
     litAt "Thursday".data, litAt "Friday".data, litAt "Saturday".data,
     wdayLazyAt "Sunday".data]) sec

/-- `latestSection.match(/EARLYBIRD|MORNING|MIDDAY|MIDAFTERNOON|DRIVETIME|EVENING/)`. -/
def cashTime (sec : List Char) : Option (List Char) :=
  scanFirst (firstAlt
    [litAt "EARLYBIRD".data, litAt "MORNING".data, litAt "MIDDAY".data,
     litAt "MIDAFTERNOON".data, litAt "DRIVETIME".data, litAt "EVENING".data]) sec

/-- `latestSection.match(/>(\d{1,2})<\/div>/)`: the first captured value. -/
def cashNum (sec : List Char) : Option Nat :=
  scanFirst (fun l => (tryDivNum l).map (fun pr => pr.1)) sec

/-- One attempt of `Next Jackpot:\s*\$[0-9A-Za-z]+`; the whole match. -/
def jackpotAt (l : List Char) : Option (List Char) :=
  if ("Next Jackpot:".data).isPrefixOf l then
    let r1 := l.drop 13
    let ws := r1.takeWhile Char.isWhitespace
    let r2 := r1.drop ws.length
    match r2 with
    | '$' :: r3 =>
      let run := r3.takeWhile Char.isAlphanum
      if run.isEmpty then none else some ("Next Jackpot:".data ++ ws ++ '$' :: run)
    | _ => none
  else none

def jackpotMatch (sec : List Char) : Option (List Char) := scanFirst jackpotAt sec

structure CashRec where
  title : String
  drawDate : List Char
  drawTime : List Char
  numbers : List Nat
  note : List Char
deriving DecidableEq

structure LottoRec1 where
  title : String
  drawDate : List Char
  numbers : List Nat
  bonus : Option Nat
  note : List Char
deriving DecidableEq

/-- `scrapeCashPot` of the first variant: section, then date, session
label and first ball `<div>`; `null` when any of the three is missing.
`numbers` is the singleton of the first captured ball value. -/
def scrapeCashPot (html : List Char) : Option CashRec :=
  match extractBetween html ("Cash Pot Result".data) ("Cash Pot Result History".data) with
  | none => none
  | some sec =>
    match cashDate sec, cashTime sec, cashNum sec with
    | some d, some t, some n => some ⟨"Cash Pot", d, t, [n], []⟩
    | _, _, _ => none

/-- `scrapeLotto` of the first variant: `null` when there is no date, or
when fewer than six `>(\d{1,2})</div>` tokens occur in the section. -/
def scrapeLotto (html : List Char) : Option LottoRec1 :=
  match extractBetween html ("Lotto Result".data) ("Lotto Result History".data) with
  | none => none
  | some sec =>
    let dateM := lottoDate sec
    let numberMatches := (divNums sec).take 7
    if dateM.isNone = true ∨ numberMatches.length < 6 then none
    else some ⟨"Lotto", dateM.getD [], numberMatches.take 6, numberMatches.get? 6,
      (jackpotMatch sec).getD []⟩

/-- `scrapeSuperLotto` of the first variant (5 main numbers + bonus). -/
def scrapeSuperLotto (html : List Char) : Option LottoRec1 :=
  match extractBetween html ("Super Lotto Result".data) ("Super Lotto Result History".data) with
  | none => none
  | some sec =>
    let dateM := superDate sec
    let numberMatches := (divNums sec).take 6
    if dateM.isNone = true ∨ numberMatches.length < 5 then none
    else some ⟨"Super Lotto", dateM.getD [], numberMatches.take 5, numberMatches.get? 5,
      (jackpotMatch sec).getD []⟩

structure RunDoc where
  cash_pot : Option CashRec
  lotto : Option LottoRec1
  super_lotto : Option LottoRec1
deriving DecidableEq

structure RunResult where
  doc : RunDoc
  exitCode : Nat
deriving DecidableEq

/-- `run` of the first variant, on an already-fetched page.  The three
scrapers are total functions, so once the page is fetched the run always
assembles the document, writes it, and exits 0; a game whose scraper
returned `null` is simply a `null` entry in the document. -/
def run (html : List Char) : RunResult :=
  ⟨⟨scrapeCashPot html, scrapeLotto html, scrapeSuperLotto html⟩, 0⟩

end V1

namespace P2

/-- `extractBetween` of part_002: unlike the `V1` one it keeps the start
marker (`substring(s, e)` starts at the marker's own index). -/
def extractBetween (t s e : List Char) : Option (List Char) :=
  match jsIndexOf t s with
  | none => none
  | some i =>
    match jsIndexOfFrom t e (i + s.length) with
    | none => none
    | some j => some ((t.take j).drop i)

/-- One global `String.replace(pat, rep)` pass (non-overlapping, left to
right).  Fuel is the text length; `pat` is nonempty in every use. -/
def replaceAllAux (pat rep : List Char) : Nat → List Char → List Char
  | 0, l => l
  | _ + 1, [] => []
  | fuel + 1, c :: rest =>
    if pat.isPrefixOf (c :: rest) then
      rep ++ replaceAllAux pat rep fuel ((c :: rest).drop pat.length)
    else c :: replaceAllAux pat rep fuel rest

def replaceAll (pat rep l : List Char) : List Char := replaceAllAux pat rep l.length l

/-- `replace(/<[^>]*>/g, " ")`: a `<` with a later `>` swallows
everything up to that `>`; a `<` with no `>` after it matches nothing. -/
def stripTagsAux : Nat → List Char → List Char
  | 0, l => l
  | _ + 1, [] => []
  | fuel + 1, c :: rest =>
    if c == '<' then
      match jsIndexOf rest ['>'] with
      | some j => ' ' :: stripTagsAux fuel (rest.drop (j + 1))
      | none => c :: rest
    else c :: stripTagsAux fuel rest

def stripTags (l : List Char) : List Char := stripTagsAux l.length l

/-- `replace(/\s+/g, " ")`. -/
def collapseWsAux : Bool → List Char → List Char
  | _, [] => []
  | prevWs, c :: rest =>
    if c.isWhitespace then
      if prevWs then collapseWsAux true rest else ' ' :: collapseWsAux true rest
    else c :: collapseWsAux false rest

/-- `.trim()`. -/
def trimC (l : List Char) : List Char :=
  ((l.dropWhile Char.isWhitespace).reverse.dropWhile Char.isWhitespace).reverse

/-- `cleanText` of part_002, pass for pass. -/
def cleanText (l : List Char) : List Char :=
  trimC (collapseWsAux false (stripTags
    (replaceAll ("&amp;".data) ['&'] (replaceAll ("&nbsp;".data) [' '] l))))

/-- Case-insensitive literal test (`pat` given in lowercase). -/
def ciPrefix (pat : List Char) (l : List Char) : Bool :=
  ((l.take pat.length).map Char.toLower) == pat

def isWordC (c : Char) : Bool := c.isAlphanum || c == '_'

/-- `\b` before the match position: start of text or a non-word char. -/
def prevOkB : Option Char → Bool
  | none => true
  | some c => !isWordC c

/-- Leftmost-match scan that carries the previous character, for the
patterns that start with a `\b` boundary. -/
def scanFirstP {α : Type} (f : Option Char → List Char → Option α) :
    Option Char → List Char → Option α
  | _, [] => none
  | prev, c :: rest =>
    match f prev (c :: rest) with
    | some r => some r
    | none => scanFirstP f (some c) rest

/-- Greedy `(\d{1,2})`: one or two digits and the rest of the text. -/
def digits12 : List Char → Option (Nat × List Char)
  | [] => none
  | c1 :: rest =>
    if c1.isDigit then
      match rest with
      | c2 :: rest2 =>
        if c2.isDigit then some (natOfDigits [c1, c2], rest2)
        else some (natOfDigits [c1], c2 :: rest2)
      | [] => some (natOfDigits [c1], [])
    else none

/-- One attempt of the ball pattern
`<(?:div|span)[^>]*>\s*(\d{1,2})\s*<\/(?:div|span)>` (flags `gi`);
on success the captured value and the text after the match. -/
def tryBall (l : List Char) : Option (Nat × List Char) :=
  match l with
  | '<' :: r =>
    match (if ciPrefix ("div".data) r then some 3
           else if ciPrefix ("span".data) r then some 4 else none) with
    | none => none
    | some tl =>
      let r1 := r.drop tl
      let attrs := r1.takeWhile (fun c => !(c == '>'))
      match r1.drop attrs.length with
      | '>' :: r2 =>
        let r3 := r2.dropWhile Char.isWhitespace
        match digits12 r3 with
        | none => none
        | some (n, r4) =>
          let r5 := r4.dropWhile Char.isWhitespace
          match r5 with
          | '<' :: '/' :: r6 =>
            match (if ciPrefix ("div".data) r6 then some 3
                   else if ciPrefix ("span".data) r6 then some 4 else none) with
            | none => none
            | some tl2 =>
              match r6.drop tl2 with
              | '>' :: r7 => some (n, r7)
              | _ => none
          | _ => none
      | _ => none
  | _ => none

/-- `extractBallNumbers`: all matches of the ball pattern, in order.
Fuel is the text length; a match consumes at least 10 characters. -/
def ballScanAux : Nat → List Char → List Nat
  | 0, _ => []
  | _ + 1, [] => []
  | fuel + 1, c :: rest =>
    match tryBall (c :: rest) with
    | some (n, rem) => n :: ballScanAux fuel rem
    | none => ballScanAux fuel rest

def extractBallNumbers (sec : List Char) : List Nat := ballScanAux sec.length sec

def weekdays : List String :=
  ["Monday", "Tuesday", "Wednesday", "Thursday", "Friday", "Saturday", "Sunday"]

/-- `\d{1,2}\s+`: day digits followed by required whitespace; returns the
consumed span and the rest. -/
def dayWs : List Char → Option (List Char × List Char)
  | [] => none
  | c1 :: rest =>
    if c1.isDigit then
      match rest with
      | c2 :: rest2 =>
        if c2.isDigit then
          let ws := rest2.takeWhile Char.isWhitespace
          if ws.isEmpty then none else some ([c1, c2] ++ ws, rest2.drop ws.length)
        else
          let ws := (c2 :: rest2).takeWhile Char.isWhitespace
          if ws.isEmpty then none else some ([c1] ++ ws, (c2 :: rest2).drop ws.length)
      | [] => none
    else none

/-- `\d{1,2}\s+[A-Za-z]+\s+\d{4}` at a position: the matched span and
the rest of the text. -/
def dmyTail (l : List Char) : Option (List Char × List Char) :=
  match dayWs l with
  | none => none
  | some (seg1, r1) =>
    let mon := r1.takeWhile Char.isAlpha
    if mon.isEmpty then none
    else
      let r2 := r1.drop mon.length
      let ws2 := r2.takeWhile Char.isWhitespace
      if ws2.isEmpty then none
      else
        let r3 := r2.drop ws2.length
        if startsWith4Digits r3 then
          some (seg1 ++ mon ++ ws2 ++ r3.take 4, r3.drop 4)
        else none

/-- One attempt of
`\b(Monday|...|Sunday)\b\s*\|\s*(\d{1,2}\s+[A-Za-z]+\s+\d{4})` (flag `i`);
the whole match `m[0]`. -/
def date002At (prev : Option Char) (l : List Char) : Option (List Char) :=
  if prevOkB prev then
    match weekdays.find? (fun w => ciPrefix (jsLower w).data l) with
    | none => none
    | some w =>
      let wl := w.data.length
      let r1 := l.drop wl
      let bOk := match r1 with
        | [] => true
        | c :: _ => !isWordC c
      if bOk then
        let ws1 := r1.takeWhile Char.isWhitespace
        let r2 := r1.drop ws1.length
        match r2 with
        | '|' :: r3 =>
          let ws2 := r3.takeWhile Char.isWhitespace
          let r4 := r3.drop ws2.length
          (dmyTail r4).map (fun pr => l.take wl ++ ws1 ++ '|' :: ws2 ++ pr.1)
        | _ => none
      else none
  else none

/-- One attempt of the fallback `\b(\d{1,2}\s+[A-Za-z]+\s+\d{4})\b`. -/
def dateFallbackAt (prev : Option Char) (l : List Char) : Option (List Char) :=
  if prevOkB prev then
    match dmyTail l with
    | some (tl, r) =>
      match r with
      | [] => some tl
      | c :: _ => if isWordC c then none else some tl
    | none => none
  else none

/-- `extractFullDate` of part_002: the `Day | DD Month YYYY` pattern, a
`DD Month YYYY` fallback, or the empty string; cleaned with `cleanText`. -/
def extractFullDate (sec : List Char) : List Char :=
  match scanFirstP date002At none sec with
  | some m => cleanText m
  | none =>
    match scanFirstP dateFallbackAt none sec with
    | some m => cleanText m
    | none => []

/-- One attempt of `\b(EARLYBIRD|MORNING|MIDDAY|MIDAFTERNOON|DRIVETIME|EVENING)\b` (flag `i`). -/
def sessAt (prev : Option Char) (l : List Char) : Option (List Char) :=
  if prevOkB prev then
    match P1.cpSessions.find? (fun s0 => ciPrefix (jsLower s0).data l) with
    | none => none
    | some s0 =>
      let r := l.drop s0.data.length
      match r with
      | [] => some (l.take s0.data.length)
      | c :: _ => if isWordC c then none else some (l.take s0.data.length)
  else none

/-- `extractCashPotDrawTime`: the first session label, uppercased, or "". -/
def extractCashPotDrawTime (sec : List Char) : List Char :=
  match scanFirstP sessAt none sec with
  | some m => m.map Char.toUpper
  | none => []

/-- The label-heuristic alternation of part_002's `scrapeCashPot`. -/
def cpLabels002 : List String :=
  ["Fish", "Goat", "Dog", "Race Horse", "White Woman", "Black Man",
   "Married", "Sick Person", "Mouth", "Duppy", "Fresh Water"]

/-- One attempt of the label alternation with `\b` on both sides (flag `i`). -/
def labelAt (prev : Option Char) (l : List Char) : Option (List Char) :=
  if prevOkB prev then
    match cpLabels002.find? (fun w => ciPrefix (jsLower w).data l) with
    | none => none
    | some w =>
      let r := l.drop w.data.length
      match r with
      | [] => some (l.take w.data.length)
      | c :: _ => if isWordC c then none else some (l.take w.data.length)
  else none

/-- One attempt of `#\s?(\d{4,6})`: the captured digits. -/
def hashAt (l : List Char) : Option (List Char) :=
  match l with
  | '#' :: r =>
    let r1 := match r with
      | c :: r' => if c.isWhitespace then r' else c :: r'
      | [] => []
    let ds := r1.takeWhile Char.isDigit
    if ds.length ≥ 4 then some (ds.take 6) else none
  | _ => none

def drawNo002 (sec : List Char) : Option (List Char) := scanFirst hashAt sec

/-- `[label, drawNo ? "#"+drawNo : ""].filter(Boolean).join(" • ")`. -/
def joinSep (sep : List Char) : List (List Char) → List Char
  | [] => []
  | [x] => x
  | x :: xs => x ++ sep ++ joinSep sep xs

def note002 (label : List Char) (dn : Option (List Char)) : List Char :=
  joinSep (" • ".data)
    (([label, (match dn with | some d => '#' :: d | none => [])]).filter
      (fun p => !p.isEmpty))

structure CashRec2 where
  title : String
  drawDate : List Char
  drawTime : List Char
  numbers : List Nat
  note : List Char
deriving DecidableEq

/-- `scrapeCashPot` of part_002: the record's `numbers` holds at most the
first ball value of the section (`balls.length ? [balls[0]] : []`). -/
def scrapeCashPot (html : List Char) : Option CashRec2 :=
  match extractBetween html ("Cash Pot Result".data) ("Cash Pot Result History".data) with
  | none => none
  | some sec =>
    let balls := extractBallNumbers sec
    let label :=
      match scanFirstP labelAt none (cleanText sec) with
      | some m => m
      | none => []
    some ⟨"Cash Pot", extractFullDate sec, extractCashPotDrawTime sec,
      (match balls.head? with | some n => [n] | none => []),
      note002 label (drawNo002 sec)⟩

end P2

/-! ## Supporting lemmas about the generic scanners -/

theorem jsIndexOf_sound {t p : List Char} {i : Nat} (h : jsIndexOf t p = some i) :
    p <+: t.drop i := by
  induction t generalizing i with
  | nil =>
    simp only [jsIndexOf] at h
    split at h
    · cases h
      simp only [List.drop_zero]
      exact List.isPrefixOf_iff_prefix.mp ‹_›
    · cases h
  | cons c t' ih =>
    simp only [jsIndexOf] at h
    split at h
    · cases h
      simp only [List.drop_zero]
      exact List.isPrefixOf_iff_prefix.mp ‹_›
    · rcases Option.map_eq_some'.mp h with ⟨i', hi', rfl⟩
      simpa [List.drop_succ_cons] using ih hi'

theorem jsIndexOf_le_length {t p : List Char} {i : Nat} (h : jsIndexOf t p = some i) :
    i ≤ t.length := by
  induction t generalizing i with
  | nil =>
    simp only [jsIndexOf] at h
    split at h
    · cases h; simp
    · cases h
  | cons c t' ih =>
    simp only [jsIndexOf] at h
    split at h
    · cases h; simp
    · rcases Option.map_eq_some'.mp h with ⟨i', hi', rfl⟩
      simp only [List.length_cons]
      exact Nat.succ_le_succ (ih hi')

theorem jsIndexOf_isSome_append (pre p post : List Char) :
    (jsIndexOf (pre ++ (p ++ post)) p).isSome = true := by
  induction pre with
  | nil =>
    have hpre : p.isPrefixOf (p ++ post) = true :=
      List.isPrefixOf_iff_prefix.mpr ⟨post, rfl⟩
    cases hp : p ++ post with
    | nil =>
      simp only [List.nil_append, jsIndexOf, hp ▸ hpre, if_true]
      rfl
    | cons c r =>
      simp only [List.nil_append, jsIndexOf, hp ▸ hpre, if_true]
      rfl
  | cons c pre' ih =>
    simp only [List.cons_append, jsIndexOf]
    split
    · rfl
    · simpa using ih

theorem jsIndexOf_min {t p : List Char} {i : Nat} (h : jsIndexOf t p = some i)
    {k : Nat} (hk : p <+: t.drop k) : i ≤ k := by
  induction t generalizing i k with
  | nil =>
    simp only [jsIndexOf] at h
    split at h
    · cases h; exact Nat.zero_le k
    · cases h
  | cons c t' ih =>
    simp only [jsIndexOf] at h
    split at h
    · cases h; exact Nat.zero_le k
    · rcases Option.map_eq_some'.mp h with ⟨i', hi', rfl⟩
      rename_i hnp
      cases k with
      | zero =>
        exfalso
        apply hnp
        rw [List.drop_zero] at hk
        exact List.isPrefixOf_iff_prefix.mpr hk
      | succ k' =>
        rw [List.drop_succ_cons] at hk
        exact Nat.succ_le_succ (ih hi' hk)

theorem jsIndexOf_eq_none_of_not_contains {t p : List Char}
    (h : ∀ pre post, t ≠ pre ++ (p ++ post)) : jsIndexOf t p = none := by
  cases hi : jsIndexOf t p with
  | none => rfl
  | some i =>
    obtain ⟨u, hu⟩ := jsIndexOf_sound hi
    have ht : t = t.take i ++ (p ++ u) := by
      conv_lhs => rw [← List.take_append_drop i t]
      rw [← hu]
    exact absurd ht (h (t.take i) u)

theorem prefix_drop_split {t p : List Char} {i : Nat} (h : p <+: t.drop i) :
    t.drop i = p ++ t.drop (i + p.length) := by
  obtain ⟨u, hu⟩ := h
  have hdrop : t.drop (i + p.length) = u := by
    rw [← List.drop_drop, ← hu, List.drop_left]
  rw [hdrop, hu]

theorem drop_eq_take_drop_append {t : List Char} {a j : Nat} (ha : a ≤ j)
    (hat : a ≤ t.length) : t.drop a = (t.take j).drop a ++ t.drop j := by
  conv_lhs => rw [← List.take_append_drop j t]
  rw [List.drop_append_eq_append_drop]
  have h0 : a - (t.take j).length = 0 := by
    rw [List.length_take]; omega
  rw [h0, List.drop_zero]

theorem jsIndexOf_isSome_of_prefix {t p : List Char} {q : Nat} (h : p <+: t.drop q)
    (hq : q ≤ t.length) {k : Nat} (hk : k ≤ q) :
    (jsIndexOf (t.drop k) p).isSome = true := by
  have hsplit : t.drop k = (t.take q).drop k ++ t.drop q :=
    drop_eq_take_drop_append hk (le_trans hk hq)
  have hsplit2 : t.drop q = p ++ t.drop (q + p.length) := prefix_drop_split h
  rw [hsplit, hsplit2]
  exact jsIndexOf_isSome_append _ _ _

theorem getLast?_of_ite {α : Type} (l : List α) :
    (if l.isEmpty then none else l.get? (l.length - 1)) = l.getLast? := by
  cases l with
  | nil => rfl
  | cons a t => simp [List.getLast?_eq_getElem?, List.get?_eq_getElem?]

theorem find?_single {α : Type} (p : α → Bool) (a : α) :
    List.find? p [a] = if p a = true then some a else none := by
  rw [List.find?_cons]
  cases hp : p a <;> simp

theorem find?_append_single {α : Type} (p : α → Bool) (xs : List α) (a : α) :
    (xs ++ [a]).find? p =
      ((xs.find? p).or (if p a = true then some a else none)) := by
  rw [List.find?_append, find?_single]

theorem reverse_find?_eq_filter_getLast? {α : Type} (p : α → Bool) (l : List α) :
    l.reverse.find? p = (l.filter p).getLast? := by
  induction l with
  | nil => rfl
  | cons a t ih =>
    rw [List.reverse_cons, find?_append_single, ih, List.filter_cons]
    cases hp : p a with
    | false =>
      rw [if_neg Bool.false_ne_true, if_neg Bool.false_ne_true]
      cases (t.filter p).getLast? <;> rfl
    | true =>
      rw [if_pos rfl, if_pos rfl]
      cases hl : (t.filter p).getLast? with
      | none =>
        rw [List.getLast?_eq_none_iff.mp hl]
        rfl
      | some x =>
        have hne : t.filter p ≠ [] := by
          intro hnil
          rw [hnil] at hl
          cases hl
        obtain ⟨b, bs, hbs⟩ := List.exists_cons_of_ne_nil hne
        rw [hbs] at hl ⊢
        rw [List.getLast?_cons_cons, hl]
        rfl

/-! ## Claim C8: the fixed Lotto scenario -/

/-- C8 counterexample: on the scenario section
`"Saturday | 14 February 2026 7 8 18 31 32 34 + 24 Next Jackpot: $39M"`
the extractor `parseLottoLike` does produce a record, but its jackpot
field is absent — not a text containing `$39M` — because the jackpot
pattern `Next Jackpot\s+[A-Za-z]{3}...` requires whitespace after
`Jackpot` and a letter currency code, and `Jackpot: $39M` has neither. -/
theorem spec_c8_counterexample :
    (P1.parseLottoLike ["Saturday", "|", "14", "February", "2026", "7", "8", "18",
        "31", "32", "34", "+", "24", "Next", "Jackpot:", "$39M"] "Lotto").map
      (fun r => r.next_jackpot) = some none := by rfl

/-- C8 (amended): on the scenario section with N = 6, `parseLottoLike`
returns numbers `[7, 8, 18, 31, 32, 34]`, bonus `24`, and a date
containing `14 February 2026`, but the jackpot field is `null` (the
extractor's jackpot pattern does not match `Next Jackpot: $39M`). -/
theorem spec_c8_theorem :
    P1.parseLottoLike ["Saturday", "|", "14", "February", "2026", "7", "8", "18",
        "31", "32", "34", "+", "24", "Next", "Jackpot:", "$39M"] "Lotto" =
      some ⟨"Lotto", some "Saturday | 14 February 2026", [7, 8, 18, 31, 32, 34],
        some 24, none⟩ := by rfl

/-! ## Claim C9: the fixed Cash Pot scenario -/

/-- C9: a Cash Pot section containing
`"EARLYBIRD 8:30AM #37103 30 Fish + white + white"` yields exactly one
draw entry, with session `EARLYBIRD`, draw number `37103`, value `30`,
auxiliary label `Fish` and color tags `["white", "white"]`. -/
theorem spec_c9_theorem :
    P1.parseCashPot ["Sunday", "|", "15", "February", "2026", "EARLYBIRD", "8:30AM",
        "#37103", "30", "Fish", "+", "white", "+", "white"] =
      some ⟨"Cash Pot", some "Sunday | 15 February 2026",
        some ⟨"EARLYBIRD", "8:30AM", some "37103", some 30, "Fish", ["white", "white"]⟩,
        [⟨"EARLYBIRD", "8:30AM", some "37103", some 30, "Fish", ["white", "white"]⟩]⟩ := by
  rfl

/-! ## Claim C1: short sections and the single-draw extractors -/

/-- C1 counterexample: `parseSingleDraw` of part_000, given a section
whose text yields only three numeric tokens (fewer than N = 6), returns
the short list `[7, 8, 18]` as the numbers field — not an absent/null
numbers field as the claim states. -/
theorem spec_c1_counterexample :
    P0.parseSingleDraw ["7 8 18"] = ⟨[7, 8, 18], none⟩ ∧
      (P0.parseSingleDraw ["7 8 18"]).numbers.length < 6 := ⟨by rfl, by decide⟩

/-- C1 (amended): `scrapeLotto` of `update-lottery.js` returns `null`
whenever its located section holds fewer than six `>(\d{1,2})</div>`
number tokens; `parseSingleDraw` of part_000, however, returns the short
token list unchanged (with no bonus) instead of an absent record. -/
theorem spec_c1_theorem :
    (∀ (html sec : List Char),
      V1.extractBetween html ("Lotto Result".data) ("Lotto Result History".data) = some sec →
      (V1.divNums sec).length < 6 → V1.scrapeLotto html = none) ∧
    (∀ lines : List String,
      (P0.extractNumbersFromText (String.intercalate "\n" lines)).length < 6 →
      P0.parseSingleDraw lines =
        ⟨P0.extractNumbersFromText (String.intercalate "\n" lines), none⟩) := by
  constructor
  · intro html sec hsec hlen
    simp only [V1.scrapeLotto, hsec]
    rw [if_pos]
    right
    rw [List.length_take]
    omega
  · intro lines hlen
    simp only [P0.parseSingleDraw]
    rw [if_neg (by omega), if_neg (by omega)]

/-- C1 witness: the amended statement applied to a concrete page whose
Lotto section has one number token, and to a concrete two-number text. -/
theorem spec_c1_witness :
    V1.scrapeLotto ("Lotto ResultSaturday >1</div>Lotto Result History".data) = none ∧
      P0.parseSingleDraw ["7 8"] = ⟨[7, 8], none⟩ := by
  constructor
  · exact spec_c1_theorem.1 _ ("Saturday >1</div>".data) (by rfl) (by decide)
  · exact spec_c1_theorem.2 ["7 8"] (by decide)

/-! ## Claim C2: "latest" selection in the multi-draw extractors -/

/-- C2 counterexample: in a Cash Pot section whose last textual entry is
the `MORNING` session with value `?`, `parseCashPot` selects that entry —
whose value is absent — as `latest`, even though the earlier `EARLYBIRD`
entry has a confirmed value (and is also the later one in canonical
session order among confirmed entries). -/
theorem spec_c2_counterexample :
    (P1.parseCashPot ["Sunday", "|", "15", "February", "2026",
        "EARLYBIRD", "8:30AM", "#1", "5", "Cat", "+", "red", "+", "gold",
        "MORNING", "9:30AM", "#2", "?", "Dog", "+", "red", "+", "red"]).map
      (fun r => (r.draws.map (fun e => e.number), r.latest.map (fun e => e.number))) =
      some ([some 5, none], some none) := by rfl

/-- C2 (amended): neither multi-draw extractor consults the canonical
session ordering.  `parseCashPot` of part_001 takes the textually last
matched entry as `latest`, whether or not its value is absent; and
`parseMultiDraw` of part_000 takes the textually last entry with a
confirmed (non-absent) value. -/
theorem spec_c2_theorem :
    (∀ (ts : List String) (r : P1.CPRec), P1.parseCashPot ts = some r →
      r.latest = r.draws.getLast?) ∧
    (∀ lines : List String,
      (P0.parseMultiDraw lines).latestComplete =
        ((P0.parseMultiDraw lines).draws.filter (fun d => d.value.isSome)).getLast?) := by
  constructor
  · intro ts r h
    simp only [P1.parseCashPot] at h
    cases hd : P1.findDateAux ts with
    | none => rw [hd] at h; cases h
    | some pr =>
      obtain ⟨date, after⟩ := pr
      rw [hd] at h
      cases h
      exact getLast?_of_ite _
  · intro lines
    exact reverse_find?_eq_filter_getLast? _ _

/-- C2 witness: the amended statement applied to a concrete single-entry
Cash Pot section, and to a concrete part_000 line list. -/
theorem spec_c2_witness :
    (⟨"Cash Pot", some "Sunday | 15 February 2026",
      some ⟨"EVENING", "8:30PM", some "9", some 7, "Cat", ["red", "red"]⟩,
      [⟨"EVENING", "8:30PM", some "9", some 7, "Cat", ["red", "red"]⟩]⟩ : P1.CPRec).latest =
      ([⟨"EVENING", "8:30PM", some "9", some 7, "Cat", ["red", "red"]⟩] :
        List P1.CPDraw).getLast? ∧
    (P0.parseMultiDraw ["EARLYBIRD", "5", "MORNING", "?"]).latestComplete =
      ((P0.parseMultiDraw ["EARLYBIRD", "5", "MORNING", "?"]).draws.filter
        (fun d => d.value.isSome)).getLast? := by
  constructor
  · exact spec_c2_theorem.1 ["Sunday", "|", "15", "February", "2026", "EVENING",
      "8:30PM", "#9", "7", "Cat", "+", "red", "+", "red"] _ (by rfl)
  · exact spec_c2_theorem.2 ["EARLYBIRD", "5", "MORNING", "?"]

/-! ## Claim C6: fetch-failure isolation -/

/-- C6 counterexample: with a perfectly parseable Cash Pot page and a
failed Lotto fetch, the part_001 run produces no document at all — the
other games' records are not produced, contradicting the claim that a
fetch failure is isolated to its own game. -/
theorem spec_c6_counterexample :
    P1.main (.ok ["Sunday", "|", "15", "February", "2026", "EARLYBIRD", "8:30AM",
        "#37103", "30", "Fish", "+", "white", "+", "white"])
      (.error "fetch failed 500") (.ok []) = .error "fetch failed 500" := by rfl

/-- C6 (amended): the per-game pages are fetched with `Promise.all`, so a
fetch failure for any one game's page rejects the combined fetch and the
whole run aborts (non-zero exit) with no game's record produced. -/
theorem spec_c6_theorem (a b c : Except String (List String))
    (h : a.isOk = false ∨ b.isOk = false ∨ c.isOk = false) :
    (P1.main a b c).isOk = false := by
  cases a <;> cases b <;> cases c <;>
    simp_all [P1.main, P1.promiseAll3, Except.isOk, Except.toBool]

/-- C6 witness: the amended statement at a concrete failing middle fetch. -/
theorem spec_c6_witness : (P1.main (.ok []) (.error "HTTP 500") (.ok [])).isOk = false :=
  spec_c6_theorem _ _ _ (Or.inr (Or.inl rfl))

/-! ## Claim C7: the section locator's boundary behavior -/

/-- C7 counterexample: on a page where the heading `Lotto Result` occurs
but no boundary marker occurs after it, the section locator returns
not-found (`null`) instead of the span extending to the end of the
document. -/
theorem spec_c7_counterexample :
    V1.extractBetween ("Lotto Result 1 2 3".data) ("Lotto Result".data)
      ("Lotto Result History".data) = none := by rfl

/-- C7 (amended): when both the heading and a boundary after it occur,
both locator variants return a span, and any returned span is the
contiguous content between the markers (part_002's variant keeps the
heading at the start of the span); but when the heading occurs with no
boundary after it, both variants return not-found (`null`) — the span
never extends to the end of the document. -/
theorem spec_c7_theorem :
    (∀ (t s e r : List Char), V1.extractBetween t s e = some r →
      ∃ pre post, t = pre ++ s ++ r ++ e ++ post) ∧
    (∀ (t s e : List Char) (i : Nat), jsIndexOf t s = some i →
      jsIndexOfFrom t e (i + s.length) = none → V1.extractBetween t s e = none) ∧
    (∀ (t s e r : List Char), P2.extractBetween t s e = some r →
      s.isPrefixOf r = true ∧ ∃ pre post, t = pre ++ r ++ e ++ post) ∧
    (∀ (t s e : List Char) (i : Nat), jsIndexOf t s = some i →
      jsIndexOfFrom t e (i + s.length) = none → P2.extractBetween t s e = none) ∧
    (∀ (t s e pre mid post : List Char), t = pre ++ s ++ mid ++ e ++ post →
      (V1.extractBetween t s e).isSome = true ∧ (P2.extractBetween t s e).isSome = true) := by
  refine ⟨?_, ?_, ?_, ?_, ?_⟩
  · intro t s e r h
    cases hi : jsIndexOf t s with
    | none => simp only [V1.extractBetween, hi] at h; cases h
    | some i =>
      cases hj : jsIndexOfFrom t e (i + s.length) with
      | none => simp only [V1.extractBetween, hi, hj] at h; cases h
      | some j =>
        simp only [V1.extractBetween, hi, hj, Option.some.injEq] at h
        simp only [jsIndexOfFrom] at hj
        rcases Option.map_eq_some'.mp hj with ⟨j', hj', rfl⟩
        have hs : s <+: t.drop i := jsIndexOf_sound hi
        have hi_le : i ≤ t.length := jsIndexOf_le_length hi
        have hs_le : s.length ≤ (t.drop i).length := hs.length_le
        rw [List.length_drop] at hs_le
        have hat : i + s.length ≤ t.length := by omega
        have he : e <+: t.drop (j' + (i + s.length)) := by
          have hp := jsIndexOf_sound hj'
          rwa [List.drop_drop, Nat.add_comm (i + s.length) j'] at hp
        refine ⟨t.take i, t.drop (j' + (i + s.length) + e.length), ?_⟩
        have d2 : t.drop i = s ++ t.drop (i + s.length) := prefix_drop_split hs
        have d3 : t.drop (i + s.length) =
            (t.take (j' + (i + s.length))).drop (i + s.length) ++
              t.drop (j' + (i + s.length)) :=
          drop_eq_take_drop_append (by omega) hat
        have d4 : t.drop (j' + (i + s.length)) =
            e ++ t.drop (j' + (i + s.length) + e.length) := prefix_drop_split he
        conv_lhs => rw [← List.take_append_drop i t, d2, d3, d4]
        rw [← h]
        simp [List.append_assoc]
  · intro t s e i hi hj
    simp only [V1.extractBetween, hi, hj]
  · intro t s e r h
    cases hi : jsIndexOf t s with
    | none => simp only [P2.extractBetween, hi] at h; cases h
    | some i =>
      cases hj : jsIndexOfFrom t e (i + s.length) with
      | none => simp only [P2.extractBetween, hi, hj] at h; cases h
      | some j =>
        simp only [P2.extractBetween, hi, hj, Option.some.injEq] at h
        simp only [jsIndexOfFrom] at hj
        rcases Option.map_eq_some'.mp hj with ⟨j', hj', rfl⟩
        have hs : s <+: t.drop i := jsIndexOf_sound hi
        have hi_le : i ≤ t.length := jsIndexOf_le_length hi
        have hs_le : s.length ≤ (t.drop i).length := hs.length_le
        rw [List.length_drop] at hs_le
        have he : e <+: t.drop (j' + (i + s.length)) := by
          have hp := jsIndexOf_sound hj'
          rwa [List.drop_drop, Nat.add_comm (i + s.length) j'] at hp
        constructor
        · rw [List.isPrefixOf_iff_prefix, ← h]
          obtain ⟨u, hu⟩ := hs
          rw [List.drop_take, ← hu, List.take_append_eq_append_take,
            List.take_of_length_le (by omega)]
          exact ⟨_, rfl⟩
        · refine ⟨t.take i, t.drop (j' + (i + s.length) + e.length), ?_⟩
          have d3 : t.drop i =
              (t.take (j' + (i + s.length))).drop i ++ t.drop (j' + (i + s.length)) :=
            drop_eq_take_drop_append (by omega) (by omega)
          have d4 : t.drop (j' + (i + s.length)) =
              e ++ t.drop (j' + (i + s.length) + e.length) := prefix_drop_split he
          conv_lhs => rw [← List.take_append_drop i t, d3, d4]
          rw [← h]
          simp [List.append_assoc]
  · intro t s e i hi hj
    simp only [P2.extractBetween, hi, hj]
  · intro t s e pre mid post ht
    have hassoc : t = pre ++ (s ++ (mid ++ (e ++ post))) := by
      rw [ht]; simp [List.append_assoc]
    have hs_at : s <+: t.drop pre.length := by
      rw [hassoc, List.drop_left]
      exact ⟨mid ++ (e ++ post), rfl⟩
    have hsome_s : (jsIndexOf t s).isSome = true := by
      rw [hassoc]
      exact jsIndexOf_isSome_append pre s (mid ++ (e ++ post))
    obtain ⟨i0, hi0⟩ := Option.isSome_iff_exists.mp hsome_s
    have hi0_le : i0 ≤ pre.length := jsIndexOf_min hi0 hs_at
    have hgroup : t = (pre ++ s ++ mid) ++ (e ++ post) := by
      rw [ht]; simp [List.append_assoc]
    have he_at : e <+: t.drop (pre.length + s.length + mid.length) := by
      rw [hgroup, List.drop_left' (by simp [List.length_append]; omega)]
      exact ⟨post, rfl⟩
    have hq_le : pre.length + s.length + mid.length ≤ t.length := by
      rw [ht]
      simp only [List.length_append]
      omega
    have hfrom : (jsIndexOf (t.drop (i0 + s.length)) e).isSome = true :=
      jsIndexOf_isSome_of_prefix he_at hq_le (by omega)
    obtain ⟨j', hj'⟩ := Option.isSome_iff_exists.mp hfrom
    constructor
    · simp only [V1.extractBetween, hi0, jsIndexOfFrom, hj', Option.map_some']
      rfl
    · simp only [P2.extractBetween, hi0, jsIndexOfFrom, hj', Option.map_some']
      rfl

/-- C7 witness: the amended statement applied at concrete pages — the
not-found halves at a page whose heading has no boundary after it, and
the positive half at a page holding both markers. -/
theorem spec_c7_witness :
    V1.extractBetween ("ALotto Result123".data) ("Lotto Result".data)
      ("History".data) = none ∧
    P2.extractBetween ("ALotto Result123".data) ("Lotto Result".data)
      ("History".data) = none ∧
    (V1.extractBetween ("XheadMIDtailY".data) ("head".data) ("tail".data)).isSome = true ∧
    (P2.extractBetween ("XheadMIDtailY".data) ("head".data) ("tail".data)).isSome = true := by
  have hpos := spec_c7_theorem.2.2.2.2 ("XheadMIDtailY".data) ("head".data) ("tail".data)
    ("X".data) ("MID".data) ("Y".data) (by rfl)
  exact ⟨spec_c7_theorem.2.1 _ _ _ 1 (by rfl) (by rfl),
    spec_c7_theorem.2.2.2.1 _ _ _ 1 (by rfl) (by rfl), hpos.1, hpos.2⟩

/-! ## Claim C5: the explicit unknown marker -/

/-- C5 counterexample: in part_000's `parseMultiDraw`, a session whose
value slot is the explicit `?` marker (EARLYBIRD here) and a session
whose lookahead window parses nothing at all (MORNING, whose window is
the line `junk`) produce the identical entry shape `{draw, value: null}`
— so the unknown value is not distinct from the result of a parse
failure in that extractor, as the claim requires. -/
theorem spec_c5_counterexample :
    P0.parseMultiDraw ["EARLYBIRD", "?", "MORNING", "junk"] =
      ⟨[⟨"EARLYBIRD", none⟩, ⟨"MORNING", none⟩], none⟩ := by rfl

/-- C5 (amended): an explicit `?` value yields a DrawEntry whose value
is absent (`none`) and never the integer zero, in both extractors.  In
`parseCashPot` (part_001) the unknown value is also distinct from a
parse failure, since an occurrence whose value slot holds an
unparseable token yields no DrawEntry at all; in `parseMultiDraw`
(part_000) it is not distinct: a lookahead window with neither a number
nor a `?` yields the same absent value. -/
theorem spec_c5_theorem :
    (∀ sess, sess ∈ P1.cpSessions →
      (P1.parseCashPot ["Sunday", "|", "15", "February", "2026", sess, "8:30AM",
          "#500", "?", "Egg", "+", "red", "+", "red"]).bind (fun r => r.draws.head?) =
        some ⟨sess, "8:30AM", some "500", none, "Egg", ["red", "red"]⟩) ∧
    P1.cpScan ["EARLYBIRD", "8:30AM", "#500", "NOPE", "Egg", "+", "red", "+", "red"] = [] ∧
    (∀ w : List String, P0.mdValue ("?" :: w) = none) ∧
    (∀ window : List String,
      (∀ l ∈ window, P0.lineFirstNat l = none ∧ l.data.any (· == '?') = false) →
      P0.mdValue window = none) ∧
    (none : Option Nat) ≠ some 0 := by
  refine ⟨?_, by rfl, ?_, ?_, by simp⟩
  · intro sess h
    simp only [P1.cpSessions] at h
    fin_cases h <;> rfl
  · intro w
    rfl
  · intro window
    induction window with
    | nil => intro _; rfl
    | cons c rest ih =>
      intro h
      have hc1 := (h c (by simp)).1
      have hc2 := (h c (by simp)).2
      have hstep : P0.mdValue (c :: rest) = P0.mdValue rest := by
        simp [P0.mdValue, hc1, hc2]
      rw [hstep]
      exact ih (fun l hl => h l (by simp [hl]))

/-- C5 witness: the unknown-marker statement applied at `MIDDAY`, and
the parse-failure statement applied at a concrete unparseable window. -/
theorem spec_c5_witness :
    (P1.parseCashPot ["Sunday", "|", "15", "February", "2026", "MIDDAY", "8:30AM",
        "#500", "?", "Egg", "+", "red", "+", "red"]).bind (fun r => r.draws.head?) =
      some ⟨"MIDDAY", "8:30AM", some "500", none, "Egg", ["red", "red"]⟩ ∧
    P0.mdValue ["junk"] = none :=
  ⟨spec_c5_theorem.1 "MIDDAY" (by decide), spec_c5_theorem.2.2.2.1 ["junk"] (by decide)⟩

/-! ## Claim C4: a missing game heading -/

/-- C4: when the page content does not contain a game's heading (for
each of the three games of the first variant), the section locator
returns not-found, that game's record in the run's output document is
null, the other games' records are exactly their scrapers' results on
the same content, and the run still completes with exit code 0. -/
theorem spec_c4_theorem (html : List Char) :
    ((∀ pre post, html ≠ pre ++ ("Cash Pot Result".data ++ post)) →
      V1.extractBetween html ("Cash Pot Result".data) ("Cash Pot Result History".data) = none ∧
      V1.run html = ⟨⟨none, V1.scrapeLotto html, V1.scrapeSuperLotto html⟩, 0⟩) ∧
    ((∀ pre post, html ≠ pre ++ ("Lotto Result".data ++ post)) →
      V1.extractBetween html ("Lotto Result".data) ("Lotto Result History".data) = none ∧
      V1.run html = ⟨⟨V1.scrapeCashPot html, none, V1.scrapeSuperLotto html⟩, 0⟩) ∧
    ((∀ pre post, html ≠ pre ++ ("Super Lotto Result".data ++ post)) →
      V1.extractBetween html ("Super Lotto Result".data) ("Super Lotto Result History".data) = none ∧
      V1.run html = ⟨⟨V1.scrapeCashPot html, V1.scrapeLotto html, none⟩, 0⟩) := by
  refine ⟨?_, ?_, ?_⟩
  · intro h
    have hn := jsIndexOf_eq_none_of_not_contains h
    have he : V1.extractBetween html ("Cash Pot Result".data)
        ("Cash Pot Result History".data) = none := by
      simp only [V1.extractBetween, hn]
    have hs : V1.scrapeCashPot html = none := by
      simp only [V1.scrapeCashPot, he]
    exact ⟨he, by simp only [V1.run, hs]⟩
  · intro h
    have hn := jsIndexOf_eq_none_of_not_contains h
    have he : V1.extractBetween html ("Lotto Result".data)
        ("Lotto Result History".data) = none := by
      simp only [V1.extractBetween, hn]
    have hs : V1.scrapeLotto html = none := by
      simp only [V1.scrapeLotto, he]
    exact ⟨he, by simp only [V1.run, hs]⟩
  · intro h
    have hn := jsIndexOf_eq_none_of_not_contains h
    have he : V1.extractBetween html ("Super Lotto Result".data)
        ("Super Lotto Result History".data) = none := by
      simp only [V1.extractBetween, hn]
    have hs : V1.scrapeSuperLotto html = none := by
      simp only [V1.scrapeSuperLotto, he]
    exact ⟨he, by simp only [V1.run, hs]⟩

/-- Concrete page for the C4 witness: it contains the Cash Pot section
but no `Super Lotto Result` heading. -/
def c4html : List Char :=
  ("Cash Pot ResultMonday EARLYBIRD >30</div>Cash Pot Result History").data

/-- C4 witness: the Super Lotto conjunct applied at a concrete page
without that heading; the other two games are untouched. -/
theorem spec_c4_witness :
    V1.extractBetween c4html ("Super Lotto Result".data)
      ("Super Lotto Result History".data) = none ∧
    V1.run c4html = ⟨⟨V1.scrapeCashPot c4html, V1.scrapeLotto c4html, none⟩, 0⟩ :=
  (spec_c4_theorem c4html).2.2 (fun pre post heq => by
    have hs := jsIndexOf_isSome_append pre ("Super Lotto Result".data) post
    rw [← heq] at hs
    have hn : jsIndexOf c4html ("Super Lotto Result".data) = none := by rfl
    rw [hn] at hs
    cases hs)

/-! ## Claim C10: the single-value Cash Pot scrapers -/

/-- C10: the Cash Pot scrapers of the first `update-lottery.js` variant
and of part_002 return either null or a record whose `numbers` field has
at most one element — the first ball-like numeric token found in their
located section — so these variants never report more than one draw
value per run. -/
theorem spec_c10_theorem (html sec : List Char) :
    (V1.extractBetween html ("Cash Pot Result".data) ("Cash Pot Result History".data) = some sec →
      ∀ r, V1.scrapeCashPot html = some r →
        r.numbers = (V1.cashNum sec).toList ∧ r.numbers.length ≤ 1) ∧
    (P2.extractBetween html ("Cash Pot Result".data) ("Cash Pot Result History".data) = some sec →
      ∀ r, P2.scrapeCashPot html = some r →
        r.numbers = (P2.extractBallNumbers sec).take 1 ∧ r.numbers.length ≤ 1) := by
  constructor
  · intro hsec r hr
    simp only [V1.scrapeCashPot, hsec] at hr
    cases hd : V1.cashDate sec with
    | none => rw [hd] at hr; cases hr
    | some dd =>
      cases ht : V1.cashTime sec with
      | none => rw [hd, ht] at hr; cases hr
      | some tt =>
        cases hn : V1.cashNum sec with
        | none => rw [hd, ht, hn] at hr; cases hr
        | some n =>
          rw [hd, ht, hn] at hr
          cases hr
          exact ⟨rfl, by simp⟩
  · intro hsec r hr
    simp only [P2.scrapeCashPot, hsec] at hr
    cases hr
    cases hb : P2.extractBallNumbers sec with
    | nil => simp [hb]
    | cons n l => simp [hb]

/-- Concrete page for the C10 witness. -/
def c10html : List Char :=
  ("Cash Pot ResultMonday EARLYBIRD <div>30</div>Cash Pot Result History").data

/-- C10 witness: both conjuncts applied at a concrete page whose Cash
Pot section holds one ball token with value 30. -/
theorem spec_c10_witness :
    ((⟨"Cash Pot", "Monday".data, "EARLYBIRD".data, [30], []⟩ : V1.CashRec).numbers =
        (V1.cashNum ("Monday EARLYBIRD <div>30</div>".data)).toList ∧
      (⟨"Cash Pot", "Monday".data, "EARLYBIRD".data, [30], []⟩ : V1.CashRec).numbers.length ≤ 1) ∧
    ((⟨"Cash Pot", [], "EARLYBIRD".data, [30], []⟩ : P2.CashRec2).numbers =
        (P2.extractBallNumbers ("Cash Pot ResultMonday EARLYBIRD <div>30</div>".data)).take 1 ∧
      (⟨"Cash Pot", [], "EARLYBIRD".data, [30], []⟩ : P2.CashRec2).numbers.length ≤ 1) :=
  ⟨(spec_c10_theorem c10html ("Monday EARLYBIRD <div>30</div>".data)).1 (by rfl) _ (by rfl),
   (spec_c10_theorem c10html
      ("Cash Pot ResultMonday EARLYBIRD <div>30</div>".data)).2 (by rfl) _ (by rfl)⟩

/-! ## Claim C3: well-formed single-draw sections -/

/-- C3 counterexample: a well-formed section with a date followed by
exactly N+1 = 7 numeric tokens of 1–2 digits before the jackpot marker,
but with no `+` separator before the seventh token: `parseLottoLike`
returns `null`, not the first six numbers and a bonus. -/
theorem spec_c3_counterexample :
    P1.parseLottoLike ["Saturday", "|", "14", "February", "2026", "1", "2", "3",
      "4", "5", "6", "7", "Next", "Jackpot:", "$39M"] "Lotto" = none := by rfl

/-- C3 (amended): for every well-formed single-draw section in which the
date block is followed by exactly six 1–2 digit numeric tokens, a
literal `+` separator, and one more 1–2 digit token (the layout the
extractor's pattern requires), `parseLottoLike` returns exactly those
six tokens as main numbers in source order and the token after the `+`
as the bonus. -/
theorem spec_c3_theorem (w d mo y n1 n2 n3 n4 n5 n6 b : String) (rest : List String)
    (hw : P1.isWordTok w = true) (hw2 : P1.isNum12 w = false)
    (hd : P1.isNum12 d = true)
    (hmo : P1.isWordTok mo = true) (hmo2 : P1.isNum12 mo = false)
    (hy : P1.isNum4 y = true) (hy2 : P1.isNum12 y = false)
    (h1 : P1.isNum12 n1 = true) (h2 : P1.isNum12 n2 = true) (h3 : P1.isNum12 n3 = true)
    (h4 : P1.isNum12 n4 = true) (h5 : P1.isNum12 n5 = true) (h6 : P1.isNum12 n6 = true)
    (hb : P1.isNum12 b = true) :
    (P1.parseLottoLike
        (w :: "|" :: d :: mo :: y :: n1 :: n2 :: n3 :: n4 :: n5 :: n6 :: "+" :: b :: rest)
        "Lotto").map (fun r => (r.date, r.numbers, r.bonus)) =
      some (some (P1.mkDate w d mo y),
        [P1.natOfTok n1, P1.natOfTok n2, P1.natOfTok n3, P1.natOfTok n4, P1.natOfTok n5,
          P1.natOfTok n6], some (P1.natOfTok b)) := by
  have hbar : P1.isNum12 "|" = false := by rfl
  have hdate : P1.findDateAux
      (w :: "|" :: d :: mo :: y :: n1 :: n2 :: n3 :: n4 :: n5 :: n6 :: "+" :: b :: rest) =
      some (P1.mkDate w d mo y,
        w :: "|" :: d :: mo :: y :: n1 :: n2 :: n3 :: n4 :: n5 :: n6 :: "+" :: b :: rest) := by
    simp only [P1.findDateAux, P1.dateHead, hw, hd, hmo, hy, beq_self_eq_true,
      Bool.true_and, Bool.and_self, if_true]
  have hnums : P1.findNums
      (w :: "|" :: d :: mo :: y :: n1 :: n2 :: n3 :: n4 :: n5 :: n6 :: "+" :: b :: rest) =
      some ([P1.natOfTok n1, P1.natOfTok n2, P1.natOfTok n3, P1.natOfTok n4, P1.natOfTok n5,
        P1.natOfTok n6], P1.natOfTok b) := by
    simp only [P1.findNums, P1.numsHead, hw2, hbar, hd, hmo2, hy2, h1, h2, h3, h4, h5, h6,
      hb, beq_self_eq_true, Bool.true_and, Bool.false_and, Bool.and_false, Bool.and_true,
      Bool.and_self, if_true, if_false]
    simp
  simp only [P1.parseLottoLike, hdate, hnums, Option.map_some']

/-- C3 witness: the amended statement at the concrete scenario tokens. -/
theorem spec_c3_witness :
    (P1.parseLottoLike ["Saturday", "|", "14", "February", "2026", "7", "8", "18",
        "31", "32", "34", "+", "24"] "Lotto").map (fun r => (r.date, r.numbers, r.bonus)) =
      some (some "Saturday | 14 February 2026", [7, 8, 18, 31, 32, 34], some 24) := by
  have h := spec_c3_theorem "Saturday" "14" "February" "2026" "7" "8" "18" "31" "32" "34"
    "24" [] (by rfl) (by rfl) (by rfl) (by rfl) (by rfl) (by rfl) (by rfl) (by rfl)
    (by rfl) (by rfl) (by rfl) (by rfl) (by rfl) (by rfl)
  exact h
